import Mathlib

/-!
Shallow embedding of the ascii-waves repository (JavaScript) in Lean 4.

JavaScript numbers are modelled as exact rationals (`ℚ`); the only
operations of the repository that leave the rationals are the `Math.sin` /
`Math.PI` calls of the wave synthesizer, which are modelled over `ℝ`.
`Math.floor` is `Int.floor`, `Math.round x` is `⌊x + 1/2⌋`, and the JS `%`
operator (truncated remainder, sign of the dividend) is `Int.tmod` on
integers.

Array reads and writes are modelled with explicit bounds checks: a lookup
returns `Option`, so that an out-of-bounds access is visible as `none`.
-/

namespace AsciiWaves

/-! ## JS numeric primitives (`src/public/js/utils.js` and JS builtins) -/

/-- Source `Utils.clamp(value, min, max) = Math.max(min, Math.min(max, value))`. -/
def clamp (value lo hi : ℚ) : ℚ := max lo (min hi value)

/-- Source `Math.round` on a rational: round half toward positive infinity. -/
def jsRound (q : ℚ) : ℤ := ⌊q + 1/2⌋

/-- Truncation toward zero, as JS `ToInteger` style truncation on rationals. -/
def jsTrunc (q : ℚ) : ℤ := if 0 ≤ q then ⌊q⌋ else ⌈q⌉

/-- JS `%` on (rational) numbers: truncated remainder, sign of the dividend. -/
def jsFmod (a b : ℚ) : ℚ := a - b * jsTrunc (a / b)

/-! ## Simplex noise (`src/public/js/noise.js`) -/

/-- State of a constructed `SimplexNoise` object: the shuffled 256-entry
table `p`, the 512-entry extension `perm`, and `permMod12`. -/
structure SimplexNoise where
  p : List ℕ
  perm : List ℕ
  permMod12 : List ℕ
  deriving DecidableEq

/-- One step of `seededRandom`: `seed = (seed * 9301 + 49297) % 233280`,
with JS `%` (truncated remainder). -/
def lcgNext (seed : ℤ) : ℤ := Int.tmod (seed * 9301 + 49297) 233280

/-- The value returned by the `seededRandom` closure: `seed / 233280`. -/
def lcgOut (seed : ℤ) : ℚ := (seed : ℚ) / 233280

/-- The destructuring swap `[p[i], p[j]] = [p[j], p[i]]` of the shuffle
loop, on the `Uint8Array` `p`: reading `p[j]` out of range yields
`undefined`, which the typed-array write into `p[i]` coerces to `0`, and
the out-of-range write to `p[j]` is silently dropped. -/
def jsSwap (p : List ℕ) (i : ℕ) (j : ℤ) : List ℕ :=
  let vi := p.getD i 0
  let vj : ℕ := if 0 ≤ j ∧ j < (p.length : ℤ) then p.getD j.toNat 0 else 0
  let q := p.set i vj
  if 0 ≤ j ∧ j < (q.length : ℤ) then q.set j.toNat vi else q

/-- One iteration of the Fisher-Yates loop at index `i`, on state
`(p, seed)`.  `j = Math.floor(random() * (i + 1))` is written here as the
floor division `(seed * (i+1)) / 233280`, which is the same integer since
`random() = seed / 233280` exactly over the rationals (`shuffleStep_j_eq`
below); `j` may be negative when the seed has gone negative. -/
def shuffleStep (st : List ℕ × ℤ) (i : ℕ) : List ℕ × ℤ :=
  (jsSwap st.1 i ((lcgNext st.2 * (i + 1)) / 233280), lcgNext st.2)

/-- The `j` computed by `shuffleStep` is exactly the source expression
`Math.floor(random() * (i + 1))` with `random() = seed / 233280`. -/
theorem shuffleStep_j_eq (seed : ℤ) (i : ℕ) :
    (seed * (i + 1)) / 233280 = ⌊lcgOut seed * ((i : ℚ) + 1)⌋ := by
  have h : lcgOut seed * ((i : ℚ) + 1) = ((seed * (i + 1) : ℤ) : ℚ) / ((233280 : ℕ) : ℚ) := by
    unfold lcgOut
    push_cast
    ring
  rw [h, Rat.floor_intCast_div_natCast]
  norm_num

/-- The shuffle run by the constructor: start from the identity table `[0..255]`
and run the loop `for (let i = 255; i > 0; i--)`. -/
def fisherYates (seed : ℤ) : List ℕ × ℤ :=
  (List.range 255).foldl (fun st k => shuffleStep st (255 - k)) (List.range 256, seed)

/-- The shuffled 256-entry table of `new SimplexNoise(seed)`. -/
def simplexP (seed : ℤ) : List ℕ := (fisherYates seed).1

/-- The 512-entry extension: `perm[i] = p[i & 255]`. -/
def simplexPerm (seed : ℤ) : List ℕ :=
  (List.range 512).map (fun i => (simplexP seed).getD (i % 256) 0)

/-- The mod-12 gradient-index table: `permMod12[i] = perm[i] % 12`. -/
def simplexPermMod12 (seed : ℤ) : List ℕ := (simplexPerm seed).map (· % 12)

/-- Source `new SimplexNoise(seed)`: shuffle `p`, then extend to `perm` and
derive `permMod12`. -/
def mkSimplexNoise (seed : ℤ) : SimplexNoise :=
  ⟨simplexP seed, simplexPerm seed, simplexPermMod12 seed⟩

/-- The twelve fixed gradient vectors `grad3`. -/
def grad3 : List (ℤ × ℤ × ℤ) :=
  [(1,1,0), (-1,1,0), (1,-1,0), (-1,-1,0),
   (1,0,1), (-1,0,1), (1,0,-1), (-1,0,-1),
   (0,1,1), (0,-1,1), (0,1,-1), (0,-1,-1)]

/-- Source `dot3(g, x, y, z) = g[0]*x + g[1]*y + g[2]*z`. -/
def dot3 (g : ℤ × ℤ × ℤ) (x y z : ℚ) : ℚ :=
  (g.1 : ℚ) * x + (g.2.1 : ℚ) * y + (g.2.2 : ℚ) * z

/-- One corner contribution of `noise3D`: zero if the falloff
`t = 0.6 - x² - y² - z²` is negative, else `t⁴` times the gradient dot. -/
def cornerContrib (t : ℚ) (g : ℤ × ℤ × ℤ) (x y z : ℚ) : ℚ :=
  if t < 0 then 0 else t * t * (t * t) * dot3 g x y z

/-- The simplex-corner ordering of `noise3D`: the six-way comparison
returning `((i1,j1,k1), (i2,j2,k2))`. -/
def simplexCorners (x0 y0 z0 : ℚ) : (ℕ × ℕ × ℕ) × (ℕ × ℕ × ℕ) :=
  if x0 ≥ y0 then
    if y0 ≥ z0 then ((1,0,0), (1,1,0))
    else if x0 ≥ z0 then ((1,0,0), (1,0,1))
    else ((0,0,1), (1,0,1))
  else
    if y0 < z0 then ((0,0,1), (0,1,1))
    else if x0 < z0 then ((0,1,0), (0,1,1))
    else ((0,1,0), (1,1,0))

/-- The gradient selected for one corner:
`grad3[permMod12[ii + i1 + perm[jj + j1 + perm[kk + k1]]]]`, with every
table access bounds-checked. -/
def gradAt (n : SimplexNoise) (ii jj kk : ℕ) (o : ℕ × ℕ × ℕ) :
    Option (ℤ × ℤ × ℤ) :=
  (n.perm.get? (kk + o.2.2)).bind fun pk =>
  (n.perm.get? (jj + o.2.1 + pk)).bind fun pj =>
  (n.permMod12.get? (ii + o.1 + pj)).bind fun gi =>
  grad3.get? gi

/-- JS `i & 255` after `Math.floor`: `ToInt32(i) & 255 = i mod 256`
(Euclidean) for the integer magnitudes reachable here. -/
def mask255 (i : ℤ) : ℕ := (i % 256).toNat

/-- Source `noise3D(xin, yin, zin)` with `F3 = 1/3`, `G3 = 1/6`.  Returns `none`
iff some table access would be out of bounds. -/
def noise3D (n : SimplexNoise) (xin yin zin : ℚ) : Option ℚ :=
  let s := (xin + yin + zin) * (1/3)
  let i : ℤ := ⌊xin + s⌋
  let j : ℤ := ⌊yin + s⌋
  let k : ℤ := ⌊zin + s⌋
  let t : ℚ := ((i + j + k : ℤ) : ℚ) * (1/6)
  let x0 := xin - ((i : ℚ) - t)
  let y0 := yin - ((j : ℚ) - t)
  let z0 := zin - ((k : ℚ) - t)
  let c := simplexCorners x0 y0 z0
  let x1 := x0 - (c.1.1 : ℚ) + 1/6
  let y1 := y0 - (c.1.2.1 : ℚ) + 1/6
  let z1 := z0 - (c.1.2.2 : ℚ) + 1/6
  let x2 := x0 - (c.2.1 : ℚ) + 2 * (1/6)
  let y2 := y0 - (c.2.2.1 : ℚ) + 2 * (1/6)
  let z2 := z0 - (c.2.2.2 : ℚ) + 2 * (1/6)
  let x3 := x0 - 1 + 3 * (1/6)
  let y3 := y0 - 1 + 3 * (1/6)
  let z3 := z0 - 1 + 3 * (1/6)
  let ii := mask255 i
  let jj := mask255 j
  let kk := mask255 k
  (gradAt n ii jj kk (0, 0, 0)).bind fun g0 =>
  (gradAt n ii jj kk c.1).bind fun g1 =>
  (gradAt n ii jj kk c.2).bind fun g2 =>
  (gradAt n ii jj kk (1, 1, 1)).bind fun g3 =>
  some (32 * (cornerContrib (0.6 - x0 * x0 - y0 * y0 - z0 * z0) g0 x0 y0 z0
    + cornerContrib (0.6 - x1 * x1 - y1 * y1 - z1 * z1) g1 x1 y1 z1
    + cornerContrib (0.6 - x2 * x2 - y2 * y2 - z2 * z2) g2 x2 y2 z2
    + cornerContrib (0.6 - x3 * x3 - y3 * y3 - z3 * z3) g3 x3 y3 z3))

/-- Source `sample3`, the noise value as consumed by the wave engine (the source
indexes unconditionally; in-bounds accesses make the `getD` default dead). -/
def sample3 (n : SimplexNoise) (x y z : ℚ) : ℚ := (noise3D n x y z).getD 0

/-! ## Permutation-table invariants -/

/-- Extracting the element at `m` and writing `a` in its place permutes
`a` to the front. -/
theorem get_cons_set_perm {α : Type} :
    ∀ (t : List α) (m : ℕ) (h : m < t.length) (a : α),
      List.Perm (t.get ⟨m, h⟩ :: t.set m a) (a :: t)
  | b :: t, 0, _, a => by
      simpa using List.Perm.swap a b t
  | b :: t, m + 1, h, a => by
      have hm : m < t.length := by simpa using Nat.lt_of_succ_lt_succ h
      have ih := get_cons_set_perm t m hm a
      have h1 := List.Perm.swap b (t.get ⟨m, hm⟩) (t.set m a)
      have h2 := List.Perm.cons b ih
      have h3 := List.Perm.swap a b t
      simpa using h1.trans (h2.trans h3)

/-- An in-range two-element exchange via `List.set` is a permutation. -/
theorem set_set_swap_perm {α : Type} :
    ∀ (l : List α) (i j : ℕ) (hi : i < l.length) (hj : j < l.length),
      List.Perm ((l.set i (l.get ⟨j, hj⟩)).set j (l.get ⟨i, hi⟩)) l
  | a :: t, 0, 0, _, _ => by simp
  | a :: t, 0, j + 1, hi, hj => by
      have hj' : j < t.length := by simpa using Nat.lt_of_succ_lt_succ hj
      simpa using get_cons_set_perm t j hj' a
  | a :: t, i + 1, 0, hi, hj => by
      have hi' : i < t.length := by simpa using Nat.lt_of_succ_lt_succ hi
      simpa using get_cons_set_perm t i hi' a
  | a :: t, i + 1, j + 1, hi, hj => by
      have hi' : i < t.length := by simpa using Nat.lt_of_succ_lt_succ hi
      have hj' : j < t.length := by simpa using Nat.lt_of_succ_lt_succ hj
      simpa using List.Perm.cons a (set_set_swap_perm t i j hi' hj')

theorem lcgNext_nonneg {s : ℤ} (hs : 0 ≤ s) : 0 ≤ lcgNext s :=
  Int.tmod_nonneg _ (by omega)

theorem lcgNext_lt (s : ℤ) : lcgNext s < 233280 :=
  Int.tmod_lt_of_pos _ (by norm_num)

/-- An in-range `jsSwap` is the ordinary exchange, hence a permutation. -/
theorem jsSwap_perm (p : List ℕ) (i : ℕ) (j : ℤ) (hi : i < p.length)
    (hj0 : 0 ≤ j) (hjlt : j.toNat < p.length) :
    List.Perm (jsSwap p i j) p := by
  have hcond : 0 ≤ j ∧ j < (p.length : ℤ) := ⟨hj0, by omega⟩
  have e1 : p.getD j.toNat 0 = p.get ⟨j.toNat, hjlt⟩ := by
    simp [List.getD_eq_getElem?_getD, List.getElem?_eq_getElem hjlt]
  have e2 : p.getD i 0 = p.get ⟨i, hi⟩ := by
    simp [List.getD_eq_getElem?_getD, List.getElem?_eq_getElem hi]
  have hstep : jsSwap p i j =
      (p.set i (p.get ⟨j.toNat, hjlt⟩)).set j.toNat (p.get ⟨i, hi⟩) := by
    unfold jsSwap
    simp only [List.length_set]
    rw [if_pos hcond, if_pos hcond, e1, e2]
  rw [hstep]
  exact set_set_swap_perm p i j.toNat hi hjlt

/-- One shuffle iteration with a nonnegative seed keeps the table a
permutation of `[0..255]` and the seed nonnegative. -/
theorem shuffleStep_inv (st : List ℕ × ℤ) (i : ℕ) (hi : i ≤ 255)
    (hp : List.Perm st.1 (List.range 256)) (hs : 0 ≤ st.2) :
    List.Perm (shuffleStep st i).1 (List.range 256) ∧ 0 ≤ (shuffleStep st i).2 := by
  have hlen : st.1.length = 256 := hp.length_eq.trans (List.length_range 256)
  have h0 : 0 ≤ lcgNext st.2 := lcgNext_nonneg hs
  have hlt : lcgNext st.2 < 233280 := lcgNext_lt st.2
  have hj0 : 0 ≤ (lcgNext st.2 * (i + 1)) / 233280 :=
    Int.ediv_nonneg (by positivity) (by norm_num)
  have hjle : (lcgNext st.2 * (i + 1)) / 233280 < (i : ℤ) + 1 := by
    rw [Int.ediv_lt_iff_lt_mul (by norm_num)]
    have hpos : (0 : ℤ) < (i : ℤ) + 1 := by positivity
    nlinarith
  have hiLt : i < st.1.length := by omega
  have hjLt : ((lcgNext st.2 * (i + 1)) / 233280).toNat < st.1.length := by omega
  exact ⟨(jsSwap_perm st.1 i _ hiLt hj0 hjLt).trans hp, h0⟩

theorem foldl_shuffle_inv :
    ∀ (l : List ℕ) (st : List ℕ × ℤ),
      List.Perm st.1 (List.range 256) → 0 ≤ st.2 →
      List.Perm ((l.foldl (fun acc k => shuffleStep acc (255 - k)) st).1) (List.range 256)
  | [], _, hp, _ => hp
  | k :: l, st, hp, hs => by
      have h := shuffleStep_inv st (255 - k) (by omega) hp hs
      rw [List.foldl_cons]
      exact foldl_shuffle_inv l (shuffleStep st (255 - k)) h.1 h.2

set_option maxRecDepth 4000 in
/-- For a nonnegative seed the shuffled table is a permutation of
`[0..255]`. -/
theorem simplexP_perm {s : ℤ} (hs : 0 ≤ s) :
    List.Perm (simplexP s) (List.range 256) := by
  unfold simplexP fisherYates
  exact foldl_shuffle_inv (List.range 255) (List.range 256, s) (List.Perm.refl _) hs

theorem simplexP_length {s : ℤ} (hs : 0 ≤ s) : (simplexP s).length = 256 :=
  (simplexP_perm hs).length_eq.trans (List.length_range 256)

theorem simplexPerm_length (s : ℤ) : (simplexPerm s).length = 512 := by
  unfold simplexPerm
  rw [List.length_map, List.length_range]

theorem simplexPermMod12_length (s : ℤ) : (simplexPermMod12 s).length = 512 := by
  unfold simplexPermMod12
  rw [List.length_map, simplexPerm_length]

/-- Every entry of the extended table `perm` is a value of `p`, hence
below 256 when `p` is a permutation of `[0..255]`. -/
theorem simplexPerm_lt {s : ℤ} (hs : 0 ≤ s) :
    ∀ v ∈ simplexPerm s, v < 256 := by
  intro v hv
  obtain ⟨i, _, rfl⟩ := List.mem_map.mp hv
  have hmod : i % 256 < (simplexP s).length := by
    rw [simplexP_length hs]; exact Nat.mod_lt _ (by norm_num)
  have hmem : (simplexP s).getD (i % 256) 0 ∈ simplexP s := by
    rw [List.getD_eq_getElem?_getD, List.getElem?_eq_getElem hmod]
    exact List.getElem_mem _
  exact List.mem_range.mp ((simplexP_perm hs).mem_iff.mp hmem)

theorem simplexPermMod12_lt (s : ℤ) : ∀ v ∈ simplexPermMod12 s, v < 12 := by
  intro v hv
  obtain ⟨w, _, rfl⟩ := List.mem_map.mp hv
  exact Nat.mod_lt _ (by norm_num)

theorem mask255_lt (i : ℤ) : mask255 i < 256 := by
  unfold mask255
  omega

/-- The simplex-corner offsets are always 0 or 1 in every component. -/
theorem simplexCorners_le (x0 y0 z0 : ℚ) :
    (simplexCorners x0 y0 z0).1.1 ≤ 1 ∧ (simplexCorners x0 y0 z0).1.2.1 ≤ 1 ∧
    (simplexCorners x0 y0 z0).1.2.2 ≤ 1 ∧ (simplexCorners x0 y0 z0).2.1 ≤ 1 ∧
    (simplexCorners x0 y0 z0).2.2.1 ≤ 1 ∧ (simplexCorners x0 y0 z0).2.2.2 ≤ 1 := by
  unfold simplexCorners
  split_ifs <;> simp

/-- With well-formed tables, every corner gradient lookup succeeds. -/
theorem gradAt_isSome (n : SimplexNoise)
    (hlen : n.perm.length = 512) (hml : n.permMod12.length = 512)
    (hv : ∀ v ∈ n.perm, v < 256) (hm : ∀ v ∈ n.permMod12, v < 12)
    (ii jj kk : ℕ) (hii : ii < 256) (hjj : jj < 256) (hkk : kk < 256)
    (o : ℕ × ℕ × ℕ) (ho1 : o.1 ≤ 1) (ho2 : o.2.1 ≤ 1) (ho3 : o.2.2 ≤ 1) :
    (gradAt n ii jj kk o).isSome := by
  have h1 : kk + o.2.2 < n.perm.length := by omega
  have hpk : n.perm.get ⟨kk + o.2.2, h1⟩ < 256 := hv _ (List.get_mem _ _ _)
  have h2 : jj + o.2.1 + n.perm.get ⟨kk + o.2.2, h1⟩ < n.perm.length := by omega
  have hpj : n.perm.get ⟨_, h2⟩ < 256 := hv _ (List.get_mem _ _ _)
  have h3 : ii + o.1 + n.perm.get ⟨_, h2⟩ < n.permMod12.length := by omega
  have hgi : n.permMod12.get ⟨_, h3⟩ < 12 := hm _ (List.get_mem _ _ _)
  have h4 : n.permMod12.get ⟨_, h3⟩ < grad3.length := by
    simpa [grad3] using hgi
  unfold gradAt
  rw [List.get?_eq_get h1, Option.some_bind, List.get?_eq_get h2, Option.some_bind,
    List.get?_eq_get h3, Option.some_bind, List.get?_eq_get h4]
  rfl

theorem bind_chain_isSome {G : Type} (o1 o2 o3 o4 : Option G) (f : G → G → G → G → ℚ)
    (h1 : o1.isSome) (h2 : o2.isSome) (h3 : o3.isSome) (h4 : o4.isSome) :
    (o1.bind fun g0 => o2.bind fun g1 => o3.bind fun g2 => o4.bind fun g3 =>
      some (f g0 g1 g2 g3)).isSome := by
  obtain ⟨a1, rfl⟩ := Option.isSome_iff_exists.mp h1
  obtain ⟨a2, rfl⟩ := Option.isSome_iff_exists.mp h2
  obtain ⟨a3, rfl⟩ := Option.isSome_iff_exists.mp h3
  obtain ⟨a4, rfl⟩ := Option.isSome_iff_exists.mp h4
  rfl

/-- With well-formed tables, `noise3D` never goes out of bounds. -/
theorem noise3D_isSome (n : SimplexNoise)
    (hlen : n.perm.length = 512) (hml : n.permMod12.length = 512)
    (hv : ∀ v ∈ n.perm, v < 256) (hm : ∀ v ∈ n.permMod12, v < 12)
    (xin yin zin : ℚ) : (noise3D n xin yin zin).isSome := by
  unfold noise3D
  apply bind_chain_isSome
  · exact gradAt_isSome n hlen hml hv hm _ _ _ (mask255_lt _) (mask255_lt _)
      (mask255_lt _) _ (by norm_num) (by norm_num) (by norm_num)
  · exact gradAt_isSome n hlen hml hv hm _ _ _ (mask255_lt _) (mask255_lt _)
      (mask255_lt _) _ (simplexCorners_le _ _ _).1 (simplexCorners_le _ _ _).2.1
      (simplexCorners_le _ _ _).2.2.1
  · exact gradAt_isSome n hlen hml hv hm _ _ _ (mask255_lt _) (mask255_lt _)
      (mask255_lt _) _ (simplexCorners_le _ _ _).2.2.2.1
      (simplexCorners_le _ _ _).2.2.2.2.1 (simplexCorners_le _ _ _).2.2.2.2.2
  · exact gradAt_isSome n hlen hml hv hm _ _ _ (mask255_lt _) (mask255_lt _)
      (mask255_lt _) _ (by norm_num) (by norm_num) (by norm_num)

/-! ## Wave engine state (`src/public/js/wave-engine.js`) -/

/-- The `WaveConfig` record held in `this.config`. -/
structure WaveConfig where
  amplitude : ℚ
  speed : ℚ
  frequency : ℚ
  layers : ℤ
  choppiness : ℚ
  foamThreshold : ℚ
  depthEffect : ℚ
  noiseSeed : ℤ
  timeSpeed : ℚ
  deriving DecidableEq

/-- A character palette: the six ordered glyph bands. -/
structure CharacterSet where
  sky : List Char
  surface : List Char
  shallow : List Char
  medium : List Char
  deep : List Char
  foam : List Char
  deriving DecidableEq

def classicSet : CharacterSet :=
  { sky := [' ', '.', '·', '˙']
    surface := ['~', '≈', '∼', '≋']
    shallow := ['-', '=', '≡']
    medium := ['░', '▒', '▓']
    deep := ['█', '■', '▮']
    foam := ['*', '※', '✦', '✱', '⁂'] }

def minimalSet : CharacterSet :=
  { sky := [' ', ' ', '.', '.']
    surface := ['~', '~', '-', '-']
    shallow := ['-', '-', '=', '=']
    medium := ['=', '=', '#', '#']
    deep := ['#', '#', '@', '@']
    foam := ['*', '*', '+', '+', 'o'] }

def denseSet : CharacterSet :=
  { sky := [' ', '·', '˙', '⋅']
    surface := ['≈', '∽', '∼', '≋', '≃']
    shallow := ['▁', '▂', '▃', '▄']
    medium := ['▅', '▆', '▇', '█']
    deep := ['█', '▓', '▒', '░']
    foam := ['✦', '✧', '✶', '✷', '✸', '✹'] }

def unicodeSet : CharacterSet :=
  { sky := [' ', '∙', '·', '⋅', '•']
    surface := ['〜', '～', '∿', '≈', '≋']
    shallow := ['⎯', '⎼', '▬', '═']
    medium := ['░', '▒', '▓', '█']
    deep := ['█', '▉', '▊', '▋', '▌']
    foam := ['⁕', '※', '✢', '✣', '✤', '✥'] }

/-- Source `this.characterSets[name]`: key lookup in the fixed palette map. -/
def characterSets (name : String) : Option CharacterSet :=
  if name = "classic" then some classicSet
  else if name = "minimal" then some minimalSet
  else if name = "dense" then some denseSet
  else if name = "unicode" then some unicodeSet
  else none

/-- The mutable state of a `WaveEngine` instance. -/
structure WaveEngine where
  config : WaveConfig
  time : ℚ
  noise : SimplexNoise
  currentCharacterSet : String
  deriving DecidableEq

/-- The state built by the constructor for a given starting config. -/
def mkWaveEngine (cfg : WaveConfig) : WaveEngine :=
  { config := cfg
    time := 0
    noise := mkSimplexNoise cfg.noiseSeed
    currentCharacterSet := "classic" }

/-- A `Partial<WaveConfig>` argument of `updateConfig`: each field is
either absent (`none`) or supplies a new value. -/
structure ConfigPatch where
  amplitude : Option ℚ := none
  speed : Option ℚ := none
  frequency : Option ℚ := none
  layers : Option ℤ := none
  choppiness : Option ℚ := none
  foamThreshold : Option ℚ := none
  depthEffect : Option ℚ := none
  noiseSeed : Option ℤ := none
  timeSpeed : Option ℚ := none
  deriving DecidableEq

/-- The empty patch `{}`. -/
def emptyPatch : ConfigPatch := {}

/-- Source `updateConfig(newConfig)`: `Object.assign(this.config, newConfig)`,
then rebuild the noise object iff `newConfig.noiseSeed !== undefined`. -/
def updateConfig (patch : ConfigPatch) (e : WaveEngine) : WaveEngine :=
  let cfg : WaveConfig :=
    { amplitude := patch.amplitude.getD e.config.amplitude
      speed := patch.speed.getD e.config.speed
      frequency := patch.frequency.getD e.config.frequency
      layers := patch.layers.getD e.config.layers
      choppiness := patch.choppiness.getD e.config.choppiness
      foamThreshold := patch.foamThreshold.getD e.config.foamThreshold
      depthEffect := patch.depthEffect.getD e.config.depthEffect
      noiseSeed := patch.noiseSeed.getD e.config.noiseSeed
      timeSpeed := patch.timeSpeed.getD e.config.timeSpeed }
  { e with
    config := cfg
    noise := if patch.noiseSeed.isSome then mkSimplexNoise cfg.noiseSeed else e.noise }

/-- Names of the inherited `Object.prototype` members that a JS property
lookup on the plain object literal `this.characterSets` also finds (and
whose values — functions, or `Object.prototype` itself for `__proto__` —
are all truthy). -/
def protoKeys : List String :=
  ["constructor", "hasOwnProperty", "isPrototypeOf", "propertyIsEnumerable",
   "toLocaleString", "toString", "valueOf", "__proto__",
   "__defineGetter__", "__defineSetter__", "__lookupGetter__", "__lookupSetter__"]

/-- Source `setCharacterSet(setName)`: the guard is
`if (this.characterSets[setName])`, a JS property lookup that walks the
prototype chain — truthy for the four own palette keys and also for every
inherited `Object.prototype` member name. -/
def setCharacterSet (name : String) (e : WaveEngine) : WaveEngine :=
  if (characterSets name).isSome ∨ name ∈ protoKeys then
    { e with currentCharacterSet := name }
  else e

/-- Source `update(deltaTime)`: `this.time += deltaTime * this.config.timeSpeed`. -/
def update (deltaTime : ℚ) (e : WaveEngine) : WaveEngine :=
  { e with time := e.time + deltaTime * e.config.timeSpeed }

/-- Source `resetTime()`: `this.time = 0`. -/
def resetTime (e : WaveEngine) : WaveEngine := { e with time := 0 }

/-! ## Wave synthesis (`calculateWave`) -/

/-- Source `layerDepth = layer / Math.max(layers, 1)`. -/
def layerDepth (layers : ℤ) (layer : ℤ) : ℚ := (layer : ℚ) / ((max layers 1 : ℤ) : ℚ)

/-- Source `layerSpeed = speed * (1 - layerDepth * depthEffect)`. -/
def layerSpeed (cfg : WaveConfig) (layer : ℤ) : ℚ :=
  cfg.speed * (1 - layerDepth cfg.layers layer * cfg.depthEffect)

/-- Source `layerAmplitude = amplitude * (1 - layerDepth * 0.3)`. -/
def layerAmplitude (cfg : WaveConfig) (layer : ℤ) : ℚ :=
  cfg.amplitude * (1 - layerDepth cfg.layers layer * 0.3)

/-- Source `calculateWave(x, y, layer)`: the five accumulated terms. -/
noncomputable def calculateWave (e : WaveEngine) (x y : ℚ) (layer : ℤ) : ℝ :=
  let lS := layerSpeed e.config layer
  let lA := layerAmplitude e.config layer
  Real.sin (((x * e.config.frequency : ℚ) : ℝ) * Real.pi * 2 + ((e.time * lS : ℚ) : ℝ))
      * ((lA : ℚ) : ℝ)
    + Real.sin (((x * e.config.frequency * 1.5 : ℚ) : ℝ) * Real.pi * 2
        + ((e.time * lS * 1.3 : ℚ) : ℝ)) * ((lA : ℚ) : ℝ) * 0.5
    + Real.sin (((x * e.config.frequency * 2.5 : ℚ) : ℝ) * Real.pi * 2
        + ((e.time * lS * 0.7 : ℚ) : ℝ)) * ((lA : ℚ) : ℝ) * 0.3
    + ((sample3 e.noise (x * e.config.frequency * 2)
        (y * e.config.frequency * 2 + e.time * lS * 0.1) ((layer : ℚ) * 0.5)
        * e.config.choppiness * lA : ℚ) : ℝ)
    + Real.sin (((y : ℚ) : ℝ) * Real.pi + ((e.time * lS * 0.5 : ℚ) : ℝ))
      * ((lA : ℚ) : ℝ) * 0.3

/-! ## Glyph selection (`selectCharacter`) -/

/-- Source `chars[Math.min(index, chars.length - 1)]`, bounds-checked. -/
def bandPick (chars : List Char) (idx : ℤ) : Option Char :=
  let i := min idx ((chars.length : ℤ) - 1)
  if h : 0 ≤ i ∧ i.toNat < chars.length then some (chars.get ⟨i.toNat, h.2⟩) else none

/-- Source `Utils.clamp((waveValue / amplitude + 1) / 2, 0, 1)` under JS
division: for `amplitude = 0` the quotient is `+Infinity` (clamped to 1)
when `waveValue > 0`, `-Infinity` (clamped to 0) when `waveValue < 0`,
and `NaN` when `waveValue = 0`, which `Math.min` and `Math.max` both
propagate — modelled as `none`. -/
def normalizedWave (waveValue amplitude : ℚ) : Option ℚ :=
  if amplitude = 0 then
    if waveValue > 0 then some 1
    else if waveValue < 0 then some 0
    else none
  else some (clamp ((waveValue / amplitude + 1) / 2) 0 1)

/-- Source `selectCharacter(waveValue, layer)`, with the ambient `Math.random()`
value of the foam branch passed in as `rand`.  When the normalization is
`NaN` (amplitude and waveValue both zero) every band comparison in the
source is false, the sky index is `NaN`, and `chars[NaN]` is `undefined`
rather than a character: `none` here. -/
def selectCharacter (cfg : WaveConfig) (cs : CharacterSet) (rand waveValue : ℚ)
    (_layer : ℤ) : Option Char :=
  match normalizedWave waveValue cfg.amplitude with
  | none => none
  | some normalized =>
  if normalized > cfg.foamThreshold ∧ waveValue > 0 then
    bandPick cs.foam ⌊(rand * 0.3 + normalized * 0.7) * (cs.foam.length : ℚ)⌋
  else if normalized > 0.75 then
    bandPick cs.surface ⌊(normalized - 0.75) * 4 * (cs.surface.length : ℚ)⌋
  else if normalized > 0.55 then
    bandPick cs.shallow ⌊(normalized - 0.55) * 5 * (cs.shallow.length : ℚ)⌋
  else if normalized > 0.35 then
    bandPick cs.medium ⌊(normalized - 0.35) * 5 * (cs.medium.length : ℚ)⌋
  else if normalized > 0.15 then
    bandPick cs.deep ⌊(normalized - 0.15) * 5 * (cs.deep.length : ℚ)⌋
  else
    bandPick cs.sky ⌊normalized * 6.67 * (cs.sky.length : ℚ)⌋

/-- All characters of the six bands of a palette. -/
def allBandChars (cs : CharacterSet) : List Char :=
  cs.sky ++ cs.surface ++ cs.shallow ++ cs.medium ++ cs.deep ++ cs.foam

/-- All characters of the five bands other than foam. -/
def nonFoamChars (cs : CharacterSet) : List Char :=
  cs.sky ++ cs.surface ++ cs.shallow ++ cs.medium ++ cs.deep

/-! ## Color pipeline (`Utils.hslToRgb`, `Renderer.calculateColor`) -/

/-- Source `Utils.hslToRgb(h, s, l)`: the standard HSL channel function, each
channel rounded into an integer. -/
def hslToRgb (h s l : ℚ) : ℤ × ℤ × ℤ :=
  let hh := h / 360
  let a := s * min l (1 - l)
  let f : ℚ → ℚ := fun n =>
    let k := jsFmod (n + hh * 12) 12
    l - a * max (-1) (min (min (k - 3) (9 - k)) 1)
  (jsRound (f 0 * 255), jsRound (f 8 * 255), jsRound (f 4 * 255))

/-- The visual configuration record of the `Renderer`. -/
structure RenderConfig where
  cellSize : ℚ
  hue : ℚ
  saturation : ℚ
  brightness : ℚ
  contrast : ℚ
  vignetteIntensity : ℚ
  vignetteRadius : ℚ
  deriving DecidableEq

/-- Source `Renderer.calculateColor(waveValue, layerDepth)` as a function of the
wave config it reads from the engine and its own render config.  When the
normalization is `NaN` (amplitude and waveValue both zero) the `NaN`
propagates through the lightness products, the clamp, the HSL channel
functions and `Math.round`, so the source emits `rgb(NaN, NaN, NaN)`
rather than integer channels: `none` here. -/
def calculateColor (waveCfg : WaveConfig) (rc : RenderConfig)
    (waveValue layerDepthFrac : ℚ) : Option (ℤ × ℤ × ℤ) :=
  match normalizedWave waveValue waveCfg.amplitude with
  | none => none
  | some normalized =>
  let lightness0 := 0.5 + rc.brightness
  let lightness1 := lightness0 * ((0.5 + normalized * 0.5) * rc.contrast)
  let lightness2 := lightness1 * (1 - layerDepthFrac * waveCfg.depthEffect * 0.5)
  let lightness := clamp lightness2 0 1
  some (hslToRgb rc.hue rc.saturation lightness)

/-- The default configuration of the constructor (the source draws `noiseSeed`
from `Math.random`; it is fixed here to 42 for concrete instances). -/
def defaultConfig : WaveConfig :=
  { amplitude := 0.8
    speed := 1
    frequency := 1.5
    layers := 3
    choppiness := 0.3
    foamThreshold := 0.7
    depthEffect := 0.5
    noiseSeed := 42
    timeSpeed := 1.5 }

/-- The names accepted by `setCharacterSet`. -/
def paletteNames : List String := ["classic", "minimal", "dense", "unicode"]

/-! ## Claim theorems -/

/-- C6: `advanceTime` adds exactly `elapsedSeconds * timeSpeed` to the
clock, is a no-op at 0 elapsed seconds, and `resetTime` zeroes the
clock. -/
theorem advanceTime_spec (e : WaveEngine) (elapsed : ℚ) :
    (update elapsed e).time = e.time + elapsed * e.config.timeSpeed ∧
    update 0 e = e ∧ (resetTime e).time = 0 := by
  refine ⟨rfl, ?_, rfl⟩
  show { e with time := e.time + 0 * e.config.timeSpeed } = e
  rw [zero_mul, add_zero]

/-- C10: `updateConfig` never touches the animation clock or the active
character-set name, whatever the patch contains. -/
theorem updateConfig_frame (patch : ConfigPatch) (e : WaveEngine) :
    (updateConfig patch e).time = e.time ∧
    (updateConfig patch e).currentCharacterSet = e.currentCharacterSet :=
  ⟨rfl, rfl⟩

/-- C5: the empty patch is the identity on the engine state, and any
patch without a `noiseSeed` field keeps the very same noise object. -/
theorem updateConfig_empty_id (patch : ConfigPatch) (e : WaveEngine)
    (hp : patch.noiseSeed = none) :
    updateConfig emptyPatch e = e ∧ (updateConfig patch e).noise = e.noise := by
  constructor
  · rfl
  · obtain ⟨a, sp, fr, la, ch, ft, de, ns, ts⟩ := patch
    simp only at hp
    subst hp
    rfl

/-- C5 witness at a concrete engine. -/
theorem updateConfig_empty_id_witness :
    updateConfig emptyPatch (mkWaveEngine defaultConfig) = mkWaveEngine defaultConfig ∧
    (updateConfig emptyPatch (mkWaveEngine defaultConfig)).noise =
      (mkWaveEngine defaultConfig).noise :=
  updateConfig_empty_id emptyPatch (mkWaveEngine defaultConfig) rfl

/-- C7: with a single layer, layer 0 has depth fraction 0, so neither the
speed nor the amplitude is attenuated. -/
theorem singleLayer_spec (cfg : WaveConfig) (h : cfg.layers = 1) :
    layerDepth cfg.layers 0 = 0 ∧ layerSpeed cfg 0 = cfg.speed ∧
    layerAmplitude cfg 0 = cfg.amplitude := by
  have hd : layerDepth cfg.layers 0 = 0 := by
    unfold layerDepth
    simp
  refine ⟨hd, ?_, ?_⟩
  · unfold layerSpeed
    rw [hd]
    ring
  · unfold layerAmplitude
    rw [hd]
    ring

/-- C7 witness at a concrete single-layer configuration. -/
theorem singleLayer_spec_witness :
    layerDepth ({ defaultConfig with layers := 1 } : WaveConfig).layers 0 = 0 ∧
    layerSpeed { defaultConfig with layers := 1 } 0 =
      ({ defaultConfig with layers := 1 } : WaveConfig).speed ∧
    layerAmplitude { defaultConfig with layers := 1 } 0 =
      ({ defaultConfig with layers := 1 } : WaveConfig).amplitude :=
  singleLayer_spec { defaultConfig with layers := 1 } rfl

/-- C2: noise construction is a deterministic function of the seed; the
LCG recurrence is `seed = (seed*9301 + 49297) % 233280`, output
`seed / 233280`, and two instances built from the same seed have equal
tables and equal `sample3` outputs everywhere. -/
theorem noise_deterministic (s : ℤ) (n1 n2 : SimplexNoise)
    (h1 : n1 = mkSimplexNoise s) (h2 : n2 = mkSimplexNoise s) :
    (∀ t : ℤ, lcgNext t = Int.tmod (t * 9301 + 49297) 233280 ∧
      lcgOut t = (t : ℚ) / 233280) ∧
    n1.p = n2.p ∧ n1.perm = n2.perm ∧ n1.permMod12 = n2.permMod12 ∧
    ∀ x y z : ℚ, sample3 n1 x y z = sample3 n2 x y z := by
  subst h1
  subst h2
  exact ⟨fun _ => ⟨rfl, rfl⟩, rfl, rfl, rfl, fun _ _ _ => rfl⟩

/-- C2 witness at seed 42. -/
theorem noise_deterministic_witness :
    (∀ t : ℤ, lcgNext t = Int.tmod (t * 9301 + 49297) 233280 ∧
      lcgOut t = (t : ℚ) / 233280) ∧
    (mkSimplexNoise 42).p = (mkSimplexNoise 42).p ∧
    (mkSimplexNoise 42).perm = (mkSimplexNoise 42).perm ∧
    (mkSimplexNoise 42).permMod12 = (mkSimplexNoise 42).permMod12 ∧
    ∀ x y z : ℚ, sample3 (mkSimplexNoise 42) x y z = sample3 (mkSimplexNoise 42) x y z :=
  noise_deterministic 42 (mkSimplexNoise 42) (mkSimplexNoise 42) rfl rfl

/-- C8 counterexample: `"constructor"` is not one of the four palette
identifiers, yet the prototype-chain lookup makes the source guard
truthy, so `setCharacterSet("constructor")` adopts the name instead of
being a no-op. -/
theorem setCharacterSet_proto_adopts :
    "constructor" ∉ paletteNames ∧
    (mkWaveEngine defaultConfig).currentCharacterSet ≠ "constructor" ∧
    (setCharacterSet "constructor" (mkWaveEngine defaultConfig)).currentCharacterSet =
      "constructor" := by
  refine ⟨by decide, by decide, ?_⟩
  unfold setCharacterSet
  rw [if_pos (Or.inr (by decide))]

/-- C8 (amended to exclude inherited member names): a name that is neither
a palette identifier nor an `Object.prototype` member name is a silent
no-op; each of the four valid identifiers installs its palette; an
inherited member name is (wrongly but silently) adopted as well. -/
theorem setCharacterSet_spec (name : String) (e : WaveEngine) :
    (name ∉ paletteNames → name ∉ protoKeys → setCharacterSet name e = e) ∧
    (name ∈ paletteNames → (setCharacterSet name e).currentCharacterSet = name) ∧
    (name ∈ protoKeys → (setCharacterSet name e).currentCharacterSet = name) := by
  have hiff : (characterSets name).isSome ↔ name ∈ paletteNames := by
    unfold characterSets paletteNames
    split_ifs <;> simp [*]
  refine ⟨?_, ?_, ?_⟩
  · intro hn hp
    unfold setCharacterSet
    rw [if_neg]
    rintro (hs | hs)
    · exact hn (hiff.mp hs)
    · exact hp hs
  · intro hn
    unfold setCharacterSet
    rw [if_pos (Or.inl (hiff.mpr hn))]
  · intro hp
    unfold setCharacterSet
    rw [if_pos (Or.inr hp)]

/-- C8 witness: a bogus name is ignored, a valid one is adopted, and an
inherited member name is adopted too. -/
theorem setCharacterSet_spec_witness :
    setCharacterSet "ocean" (mkWaveEngine defaultConfig) = mkWaveEngine defaultConfig ∧
    (setCharacterSet "unicode" (mkWaveEngine defaultConfig)).currentCharacterSet =
      "unicode" ∧
    (setCharacterSet "toString" (mkWaveEngine defaultConfig)).currentCharacterSet =
      "toString" :=
  ⟨(setCharacterSet_spec "ocean" (mkWaveEngine defaultConfig)).1 (by decide) (by decide),
   (setCharacterSet_spec "unicode" (mkWaveEngine defaultConfig)).2.1 (by decide),
   (setCharacterSet_spec "toString" (mkWaveEngine defaultConfig)).2.2 (by decide)⟩

/-- The `sampleHeight` formula of the spec, written exactly as §4.2 states it:
depth fraction `d = layer / max(layers,1)`, layer-local speed and
amplitude, then the sum of the primary oscillator, the secondary at 1.5×
frequency / 1.3× phase rate / 0.5× weight, the tertiary at 2.5× frequency
/ 0.7× phase rate / 0.3× weight, the noise term, and the vertical swell
term. -/
noncomputable def sampleHeightSpec (e : WaveEngine) (x y : ℚ) (layer : ℤ) : ℝ :=
  let d : ℚ := (layer : ℚ) / ((max e.config.layers 1 : ℤ) : ℚ)
  let lS : ℚ := e.config.speed * (1 - d * e.config.depthEffect)
  let lA : ℚ := e.config.amplitude * (1 - d * 0.3)
  Real.sin ((x : ℝ) * (e.config.frequency : ℝ) * (2 * Real.pi) + (e.time : ℝ) * (lS : ℝ))
      * (lA : ℝ)
    + Real.sin ((x : ℝ) * ((e.config.frequency : ℝ) * 1.5) * (2 * Real.pi)
        + (e.time : ℝ) * ((lS : ℝ) * 1.3)) * ((lA : ℝ) * 0.5)
    + Real.sin ((x : ℝ) * ((e.config.frequency : ℝ) * 2.5) * (2 * Real.pi)
        + (e.time : ℝ) * ((lS : ℝ) * 0.7)) * ((lA : ℝ) * 0.3)
    + (sample3 e.noise (x * e.config.frequency * 2)
        (y * e.config.frequency * 2 + e.time * lS * 0.1) ((layer : ℚ) * 0.5) : ℝ)
      * (e.config.choppiness : ℝ) * (lA : ℝ)
    + Real.sin ((y : ℝ) * Real.pi + (e.time : ℝ) * ((lS : ℝ) * 0.5)) * ((lA : ℝ) * 0.3)

/-- C1: on the whole sampling domain, `calculateWave` computes exactly
the five-term `sampleHeight` sum of the spec. -/
theorem calculateWave_spec (e : WaveEngine) (x y : ℚ) (layer : ℤ)
    (hx0 : 0 ≤ x) (hx1 : x ≤ 1) (hy0 : 0 ≤ y) (hy1 : y ≤ 1)
    (hl0 : 0 ≤ layer) (hl1 : layer ≤ e.config.layers - 1) :
    calculateWave e x y layer = sampleHeightSpec e x y layer := by
  simp only [calculateWave, sampleHeightSpec, layerSpeed, layerAmplitude, layerDepth]
  push_cast
  ring_nf

/-- C1 witness at a concrete engine and sample point. -/
theorem calculateWave_spec_witness :
    calculateWave (mkWaveEngine defaultConfig) 0 0 0 =
      sampleHeightSpec (mkWaveEngine defaultConfig) 0 0 0 :=
  calculateWave_spec (mkWaveEngine defaultConfig) 0 0 0 (by norm_num) (by norm_num)
    (by norm_num) (by norm_num) (by norm_num) (by decide)

set_option maxRecDepth 8000 in
/-- C9 (amended to nonnegative seeds): after construction the table `p`
is a permutation of `[0..255]`, `perm` has 512 entries all below 256,
`permMod12` entries are all below 12 (selecting among the twelve fixed
gradients), and every table lookup of `noise3D` stays in bounds. -/
theorem noiseTables_spec (s : ℤ) (hs : 0 ≤ s) :
    List.Perm (mkSimplexNoise s).p (List.range 256) ∧
    (mkSimplexNoise s).perm.length = 512 ∧
    (∀ v ∈ (mkSimplexNoise s).perm, v < 256) ∧
    (∀ v ∈ (mkSimplexNoise s).permMod12, v < 12) ∧
    (∀ x y z : ℚ, (noise3D (mkSimplexNoise s) x y z).isSome) :=
  ⟨simplexP_perm hs, simplexPerm_length s, simplexPerm_lt hs, simplexPermMod12_lt s,
   fun x y z => noise3D_isSome (mkSimplexNoise s) (simplexPerm_length s)
     (simplexPermMod12_length s) (simplexPerm_lt hs) (simplexPermMod12_lt s) x y z⟩

/-- C9 witness at seed 0. -/
theorem noiseTables_spec_witness :
    List.Perm (mkSimplexNoise 0).p (List.range 256) ∧
    (mkSimplexNoise 0).perm.length = 512 ∧
    (∀ v ∈ (mkSimplexNoise 0).perm, v < 256) ∧
    (∀ v ∈ (mkSimplexNoise 0).permMod12, v < 12) ∧
    (∀ x y z : ℚ, (noise3D (mkSimplexNoise 0) x y z).isSome) :=
  noiseTables_spec 0 (by norm_num)

set_option maxRecDepth 8000 in
/-- C9 counterexample: at the integer seed −6 the first loop iteration
already computes a negative swap index (the LCG value goes negative under
JS `%`), the value 255 is lost, and `p` is no longer a permutation of
`[0..255]`. -/
theorem noiseTables_seed_neg6 :
    ¬ List.Perm (mkSimplexNoise (-6)).p (List.range 256) := by decide

/-! ## Glyph and color lemmas -/

theorem clamp01 (v : ℚ) : 0 ≤ clamp v 0 1 ∧ clamp v 0 1 ≤ 1 := by
  unfold clamp
  exact ⟨le_max_left 0 _, max_le (by norm_num) (min_le_left 1 v)⟩

/-- A nonnegative index into a nonempty band, clamped to the last
position, always yields a member of the band. -/
theorem bandPick_mem (chars : List Char) (h : chars ≠ []) (idx : ℤ) (hidx : 0 ≤ idx) :
    ∃ c, bandPick chars idx = some c ∧ c ∈ chars := by
  have hlen : 0 < chars.length := List.length_pos.mpr h
  have hmin0 : 0 ≤ min idx ((chars.length : ℤ) - 1) := le_min hidx (by omega)
  have hlt : (min idx ((chars.length : ℤ) - 1)).toNat < chars.length := by
    have := min_le_right idx ((chars.length : ℤ) - 1)
    omega
  refine ⟨chars.get ⟨(min idx ((chars.length : ℤ) - 1)).toNat, hlt⟩, ?_,
    List.get_mem _ _ _⟩
  simp only [bandPick]
  rw [dif_pos ⟨hmin0, hlt⟩]

/-- Away from the `0/0` corner, the normalization exists and lies in
`[0,1]`. -/
theorem normalizedWave_some (waveValue amplitude : ℚ)
    (h : ¬(amplitude = 0 ∧ waveValue = 0)) :
    ∃ n, normalizedWave waveValue amplitude = some n ∧ 0 ≤ n ∧ n ≤ 1 := by
  unfold normalizedWave
  split_ifs with h0 hpos hneg
  · exact ⟨1, rfl, by norm_num⟩
  · exact ⟨0, rfl, by norm_num⟩
  · exact absurd ⟨h0, by linarith⟩ h
  · exact ⟨_, rfl, (clamp01 _).1, (clamp01 _).2⟩

/-- C3 counterexample: with `amplitude = 0` and `waveValue = 0` the source
normalization is `0/0 = NaN`, every band comparison is then false, the sky
index is `NaN`, and `chars[NaN]` is `undefined` — no character of any band
is returned. -/
theorem selectGlyph_amp0_undefined :
    selectCharacter { defaultConfig with amplitude := 0 } classicSet 0 0 0 = none ∧
    ¬ ∃ c, selectCharacter { defaultConfig with amplitude := 0 } classicSet 0 0 0 =
      some c ∧ c ∈ allBandChars classicSet := by
  have h : selectCharacter { defaultConfig with amplitude := 0 } classicSet 0 0 0 =
      none := by
    simp [selectCharacter, normalizedWave]
  refine ⟨h, ?_⟩
  rintro ⟨c, hc, -⟩
  rw [h] at hc
  exact Option.noConfusion hc

set_option maxHeartbeats 1000000 in
/-- C3 (amended to exclude the `0/0` corner): away from
`amplitude = 0 ∧ waveValue = 0`, `selectCharacter` always returns a
character of one of the six bands of the active palette, and with
`foamThreshold = 1` the foam branch is unreachable, so the character comes
from the five non-foam bands. -/
theorem selectGlyph_spec (cfg : WaveConfig) (cs : CharacterSet)
    (hb : cs.sky ≠ [] ∧ cs.surface ≠ [] ∧ cs.shallow ≠ [] ∧ cs.medium ≠ [] ∧
      cs.deep ≠ [] ∧ cs.foam ≠ [])
    (rand waveValue : ℚ) (layer : ℤ) (hr : 0 ≤ rand)
    (hnz : ¬(cfg.amplitude = 0 ∧ waveValue = 0)) :
    (∃ c, selectCharacter cfg cs rand waveValue layer = some c ∧ c ∈ allBandChars cs) ∧
    (cfg.foamThreshold = 1 →
      ∃ c, selectCharacter cfg cs rand waveValue layer = some c ∧
        c ∈ nonFoamChars cs) := by
  obtain ⟨h1, h2, h3, h4, h5, h6⟩ := hb
  obtain ⟨n, hn, hn0, hn1⟩ := normalizedWave_some waveValue cfg.amplitude hnz
  simp only [selectCharacter, hn]
  have hlift : ∀ {c : Char},
      c ∈ cs.sky ∨ c ∈ cs.surface ∨ c ∈ cs.shallow ∨ c ∈ cs.medium ∨
        c ∈ cs.deep ∨ c ∈ cs.foam → c ∈ allBandChars cs := by
    intro c hc
    simp only [allBandChars, List.mem_append]
    tauto
  have hliftn : ∀ {c : Char},
      c ∈ cs.sky ∨ c ∈ cs.surface ∨ c ∈ cs.shallow ∨ c ∈ cs.medium ∨
        c ∈ cs.deep → c ∈ nonFoamChars cs := by
    intro c hc
    simp only [nonFoamChars, List.mem_append]
    tauto
  constructor
  · split_ifs with hf hsurf hshal hmed hdeep
    · obtain ⟨c, hc, hm⟩ := bandPick_mem cs.foam h6
        ⌊(rand * 0.3 + n * 0.7) * (cs.foam.length : ℚ)⌋ (Int.floor_nonneg.mpr
        (mul_nonneg (add_nonneg (mul_nonneg hr (by norm_num))
          (mul_nonneg hn0 (by norm_num))) (Nat.cast_nonneg _)))
      exact ⟨c, hc, hlift (by tauto)⟩
    · obtain ⟨c, hc, hm⟩ := bandPick_mem cs.surface h2
        ⌊(n - 0.75) * 4 * (cs.surface.length : ℚ)⌋ (Int.floor_nonneg.mpr
        (mul_nonneg (mul_nonneg (by linarith) (by norm_num)) (Nat.cast_nonneg _)))
      exact ⟨c, hc, hlift (by tauto)⟩
    · obtain ⟨c, hc, hm⟩ := bandPick_mem cs.shallow h3
        ⌊(n - 0.55) * 5 * (cs.shallow.length : ℚ)⌋ (Int.floor_nonneg.mpr
        (mul_nonneg (mul_nonneg (by linarith) (by norm_num)) (Nat.cast_nonneg _)))
      exact ⟨c, hc, hlift (by tauto)⟩
    · obtain ⟨c, hc, hm⟩ := bandPick_mem cs.medium h4
        ⌊(n - 0.35) * 5 * (cs.medium.length : ℚ)⌋ (Int.floor_nonneg.mpr
        (mul_nonneg (mul_nonneg (by linarith) (by norm_num)) (Nat.cast_nonneg _)))
      exact ⟨c, hc, hlift (by tauto)⟩
    · obtain ⟨c, hc, hm⟩ := bandPick_mem cs.deep h5
        ⌊(n - 0.15) * 5 * (cs.deep.length : ℚ)⌋ (Int.floor_nonneg.mpr
        (mul_nonneg (mul_nonneg (by linarith) (by norm_num)) (Nat.cast_nonneg _)))
      exact ⟨c, hc, hlift (by tauto)⟩
    · obtain ⟨c, hc, hm⟩ := bandPick_mem cs.sky h1
        ⌊n * 6.67 * (cs.sky.length : ℚ)⌋ (Int.floor_nonneg.mpr
        (mul_nonneg (mul_nonneg hn0 (by norm_num)) (Nat.cast_nonneg _)))
      exact ⟨c, hc, hlift (by tauto)⟩
  · intro hft
    rw [hft]
    have hnofoam : ¬ (n > 1 ∧ waveValue > 0) := fun hx => absurd hn1 (not_le.mpr hx.1)
    rw [if_neg hnofoam]
    split_ifs with hsurf hshal hmed hdeep
    · obtain ⟨c, hc, hm⟩ := bandPick_mem cs.surface h2
        ⌊(n - 0.75) * 4 * (cs.surface.length : ℚ)⌋ (Int.floor_nonneg.mpr
        (mul_nonneg (mul_nonneg (by linarith) (by norm_num)) (Nat.cast_nonneg _)))
      exact ⟨c, hc, hliftn (by tauto)⟩
    · obtain ⟨c, hc, hm⟩ := bandPick_mem cs.shallow h3
        ⌊(n - 0.55) * 5 * (cs.shallow.length : ℚ)⌋ (Int.floor_nonneg.mpr
        (mul_nonneg (mul_nonneg (by linarith) (by norm_num)) (Nat.cast_nonneg _)))
      exact ⟨c, hc, hliftn (by tauto)⟩
    · obtain ⟨c, hc, hm⟩ := bandPick_mem cs.medium h4
        ⌊(n - 0.35) * 5 * (cs.medium.length : ℚ)⌋ (Int.floor_nonneg.mpr
        (mul_nonneg (mul_nonneg (by linarith) (by norm_num)) (Nat.cast_nonneg _)))
      exact ⟨c, hc, hliftn (by tauto)⟩
    · obtain ⟨c, hc, hm⟩ := bandPick_mem cs.deep h5
        ⌊(n - 0.15) * 5 * (cs.deep.length : ℚ)⌋ (Int.floor_nonneg.mpr
        (mul_nonneg (mul_nonneg (by linarith) (by norm_num)) (Nat.cast_nonneg _)))
      exact ⟨c, hc, hliftn (by tauto)⟩
    · obtain ⟨c, hc, hm⟩ := bandPick_mem cs.sky h1
        ⌊n * 6.67 * (cs.sky.length : ℚ)⌋ (Int.floor_nonneg.mpr
        (mul_nonneg (mul_nonneg hn0 (by norm_num)) (Nat.cast_nonneg _)))
      exact ⟨c, hc, hliftn (by tauto)⟩

/-- C3 witness: classic palette, `foamThreshold = 1`, a concrete sample. -/
theorem selectGlyph_spec_witness :
    (∃ c, selectCharacter { defaultConfig with foamThreshold := 1 } classicSet 0 2 0 =
      some c ∧ c ∈ allBandChars classicSet) ∧
    (({ defaultConfig with foamThreshold := 1 } : WaveConfig).foamThreshold = 1 →
      ∃ c, selectCharacter { defaultConfig with foamThreshold := 1 } classicSet 0 2 0 =
        some c ∧ c ∈ nonFoamChars classicSet) :=
  selectGlyph_spec { defaultConfig with foamThreshold := 1 } classicSet
    (by refine ⟨?_, ?_, ?_, ?_, ?_, ?_⟩ <;> simp [classicSet])
    0 2 0 (by norm_num) (by norm_num [defaultConfig])

/-- The default visual configuration of the `Renderer` constructor. -/
def defaultRender : RenderConfig :=
  { cellSize := 16
    hue := 200
    saturation := 0.6
    brightness := 0
    contrast := 1
    vignetteIntensity := 0.4
    vignetteRadius := 0.6 }

/-- Rounding `q * 255` for `q ∈ [0,1]` lands in `[0,255]`. -/
theorem jsRound_byte (q : ℚ) (h0 : 0 ≤ q) (h1 : q ≤ 1) :
    0 ≤ jsRound (q * 255) ∧ jsRound (q * 255) ≤ 255 := by
  unfold jsRound
  constructor
  · apply Int.le_floor.mpr
    push_cast
    linarith
  · have hlt : (⌊q * 255 + 1/2⌋ : ℤ) < 256 := by
      apply Int.floor_lt.mpr
      push_cast
      linarith
    omega

/-- The HSL channel value `l - a * max(-1, min(k-3, 9-k, 1))` stays in
`[0,1]` whenever `s, l ∈ [0,1]`, for every phase `k`. -/
theorem hsl_f_unit (s l k : ℚ) (hs0 : 0 ≤ s) (hs1 : s ≤ 1)
    (hl0 : 0 ≤ l) (hl1 : l ≤ 1) :
    0 ≤ l - s * min l (1 - l) * max (-1) (min (min (k - 3) (9 - k)) 1) ∧
    l - s * min l (1 - l) * max (-1) (min (min (k - 3) (9 - k)) 1) ≤ 1 := by
  have hm0 : 0 ≤ min l (1 - l) := le_min hl0 (by linarith)
  have ha0 : 0 ≤ s * min l (1 - l) := mul_nonneg hs0 hm0
  have hal : s * min l (1 - l) ≤ min l (1 - l) := mul_le_of_le_one_left hm0 hs1
  have hmax1 : max (-1 : ℚ) (min (min (k - 3) (9 - k)) 1) ≤ 1 :=
    max_le (by norm_num) (min_le_right _ 1)
  have hmax2 : (-1 : ℚ) ≤ max (-1) (min (min (k - 3) (9 - k)) 1) := le_max_left _ _
  have hub : s * min l (1 - l) * max (-1) (min (min (k - 3) (9 - k)) 1) ≤
      s * min l (1 - l) * 1 := mul_le_mul_of_nonneg_left hmax1 ha0
  have hlb : s * min l (1 - l) * (-1) ≤
      s * min l (1 - l) * max (-1) (min (min (k - 3) (9 - k)) 1) :=
    mul_le_mul_of_nonneg_left hmax2 ha0
  have hminl : min l (1 - l) ≤ l := min_le_left _ _
  have hminr : min l (1 - l) ≤ 1 - l := min_le_right _ _
  constructor <;> nlinarith [hub, hlb, hal, hminl, hminr]

/-- Every channel of `hslToRgb` is a byte when `s, l ∈ [0,1]`. -/
theorem hslToRgb_byte (h s l : ℚ) (hs0 : 0 ≤ s) (hs1 : s ≤ 1)
    (hl0 : 0 ≤ l) (hl1 : l ≤ 1) :
    (0 ≤ (hslToRgb h s l).1 ∧ (hslToRgb h s l).1 ≤ 255) ∧
    (0 ≤ (hslToRgb h s l).2.1 ∧ (hslToRgb h s l).2.1 ≤ 255) ∧
    (0 ≤ (hslToRgb h s l).2.2 ∧ (hslToRgb h s l).2.2 ≤ 255) := by
  simp only [hslToRgb]
  exact ⟨jsRound_byte _ (hsl_f_unit s l _ hs0 hs1 hl0 hl1).1
      (hsl_f_unit s l _ hs0 hs1 hl0 hl1).2,
    jsRound_byte _ (hsl_f_unit s l _ hs0 hs1 hl0 hl1).1
      (hsl_f_unit s l _ hs0 hs1 hl0 hl1).2,
    jsRound_byte _ (hsl_f_unit s l _ hs0 hs1 hl0 hl1).1
      (hsl_f_unit s l _ hs0 hs1 hl0 hl1).2⟩

/-- At zero saturation all three channel functions collapse to `l`. -/
theorem hslToRgb_gray (h l : ℚ) :
    (hslToRgb h 0 l).1 = (hslToRgb h 0 l).2.1 ∧
    (hslToRgb h 0 l).2.1 = (hslToRgb h 0 l).2.2 := by
  simp [hslToRgb]

/-- C4 counterexample: with `amplitude = 0` and `waveValue = 0` the source
normalization is `0/0 = NaN`; the `NaN` survives the lightness products,
the clamp and `Math.round`, so the emitted color is `rgb(NaN, NaN, NaN)`
— no channel is an integer in `[0,255]`. -/
theorem calculateColor_amp0_nan :
    calculateColor { defaultConfig with amplitude := 0 } defaultRender 0 0.5 = none ∧
    ¬ ∃ t, calculateColor { defaultConfig with amplitude := 0 } defaultRender 0 0.5 =
      some t := by
  have h : calculateColor { defaultConfig with amplitude := 0 } defaultRender 0 0.5 =
      none := by
    simp [calculateColor, normalizedWave]
  refine ⟨h, ?_⟩
  rintro ⟨t, ht⟩
  rw [h] at ht
  exact Option.noConfusion ht

/-- C4 (amended to exclude the `0/0` corner): away from
`amplitude = 0 ∧ waveValue = 0`, and for a saturation within its declared
`[0,1]` range, `calculateColor` returns a triple whose channels are
integers in `[0,255]` — whatever the wave value, depth, brightness and
contrast are — and zero saturation yields a neutral gray. -/
theorem calculateColor_spec (waveCfg : WaveConfig) (rc : RenderConfig)
    (waveValue layerDepthFrac : ℚ)
    (hs0 : 0 ≤ rc.saturation) (hs1 : rc.saturation ≤ 1)
    (hnz : ¬(waveCfg.amplitude = 0 ∧ waveValue = 0)) :
    ∃ t, calculateColor waveCfg rc waveValue layerDepthFrac = some t ∧
      (0 ≤ t.1 ∧ t.1 ≤ 255) ∧ (0 ≤ t.2.1 ∧ t.2.1 ≤ 255) ∧
      (0 ≤ t.2.2 ∧ t.2.2 ≤ 255) ∧
      (rc.saturation = 0 → t.1 = t.2.1 ∧ t.2.1 = t.2.2) := by
  obtain ⟨n, hn, hn0, hn1⟩ := normalizedWave_some waveValue waveCfg.amplitude hnz
  simp only [calculateColor, hn]
  have hby := hslToRgb_byte rc.hue rc.saturation
    (clamp ((0.5 + rc.brightness) * ((0.5 + n * 0.5) * rc.contrast) *
      (1 - layerDepthFrac * waveCfg.depthEffect * 0.5)) 0 1)
    hs0 hs1 (clamp01 _).1 (clamp01 _).2
  refine ⟨_, rfl, hby.1, hby.2.1, hby.2.2, ?_⟩
  intro hz
  rw [hz]
  exact hslToRgb_gray rc.hue _

/-- C4 witness at a concrete configuration. -/
theorem calculateColor_spec_witness :
    ∃ t, calculateColor defaultConfig defaultRender 0.3 0.5 = some t ∧
      (0 ≤ t.1 ∧ t.1 ≤ 255) ∧ (0 ≤ t.2.1 ∧ t.2.1 ≤ 255) ∧
      (0 ≤ t.2.2 ∧ t.2.2 ≤ 255) ∧
      (defaultRender.saturation = 0 → t.1 = t.2.1 ∧ t.2.1 = t.2.2) :=
  calculateColor_spec defaultConfig defaultRender 0.3 0.5
    (by norm_num [defaultRender]) (by norm_num [defaultRender])
    (by norm_num [defaultConfig])

end AsciiWaves
